import Mathlib

/-!
Verification of the slider camera-control program (slider.py).

The program drives a three-axis camera slider over a serial G-code link.
This file is a shallow embedding of its sequencing core:

* `sanitize` / `stripEcho` / `send_command` embed `_send_command`;
* `acquire_filename` embeds `_acquire_filename`;
* `wait_for_idle_terminates` embeds the `wait_for_idle` polling loop,
  run against a finite stream of observed poll results;
* `interval_steps` / `macro_steps` embed the per-mode planning code;
* `intervalProcess` / `macroProcess` / `waitProcess` embed the top-level
  flow of `__main__` for those modes as event traces (serial commands,
  idle waits, sleeps, captures, directory creation, `close_ports`).

Modelling conventions:
* Python floats are modelled as exact rationals; Python ints as `Int`
  (argparse values may be negative), with `Int.toNat` translating
  `range` bounds the way Python `range` treats non-positive bounds.
* Python strings are Lean `String`s; the Python string operations used
  by the source (`startswith`, slicing, `len`, `zfill`) are modelled on
  the underlying character lists (`pyStartswith`, `pyDrop`, `pyLen`,
  `zfill4`).
* The filesystem is an oracle `existsIn : String → Bool` answering
  `os.path.exists` for names inside the scanned directory.
* The serial environment is ideal (every command is acknowledged); the
  traces model the command/wait/capture sequencing the claims are about.
  The capture backend (picamera vs gphoto2) is abstracted as a single
  `captureE` event, following the picamera branch.
-/

set_option maxRecDepth 8000

/-! ## Constants (after the unconditional OSX-section overrides at the
top of slider.py: FEEDRATE 2000→1000, PRE_CAPTURE_WAIT 0.1→2.0,
FILE_EXTENSION ".arw"→".jpg") -/

def FILE_EXTENSION : String := ".jpg"

def FEEDRATE : Nat := 1000

def FEEDRATE_SLOW : Nat := 500

def PRE_CAPTURE_WAIT : Rat := 2

def POST_CAPTURE_WAIT : Rat := 0

/-! ## Python string primitives -/

/-- Python `s.startswith(p)`. -/
def pyStartswith (s p : String) : Bool := p.data.isPrefixOf s.data

/-- Python `s[n:]`. -/
def pyDrop (s : String) (n : Nat) : String := ⟨s.data.drop n⟩

/-- Python `len(s)`. -/
def pyLen (s : String) : Nat := s.data.length

/-- Python `str(i).zfill(4)` for a natural number `i` (no sign handling
needed: the allocator only formats naturals). -/
def zfill4 (n : Nat) : String := ⟨List.replicate (4 - (toString n).data.length) '0' ++ (toString n).data⟩

/-! ## Link: `_send_command` (slider.py lines 54-102) -/

/-- The character class kept by `re.sub("[^a-zA-Z0-9_ .$]", '', response)`. -/
def allowedChar (c : Char) : Bool :=
  c.isAlphanum || c = '_' || c = ' ' || c = '.' || c = '$'

/-- `re.sub("[^a-zA-Z0-9_ .$]", '', response)`: drop every character
outside the allowed set. -/
def sanitize (s : String) : String := ⟨s.data.filter allowedChar⟩

/-- Lines 84-85: `if response.startswith(cmd): response = response[len(cmd):]`. -/
def stripEcho (cmd resp : String) : String :=
  if pyStartswith resp cmd then pyDrop resp (pyLen cmd) else resp

/-- `_send_command` on one request/response exchange: `cmd` is the
command sent, `raw` the raw bytes read back. `Except.error` models the
raised exceptions, `Except.ok` the returned value (`none` models
Python `None`). -/
def send_command (cmd raw : String) : Except String (Option String) :=
  let response := sanitize raw
  if pyLen response = 0 then
    .error "empty response or timeout"
  else if cmd = "?" then
    .ok (some response)
  else
    let response := stripEcho cmd response
    if pyStartswith response "ok" then
      if pyLen response > 1 then
        .ok (some (pyDrop response 3))
      else
        .ok none
    else
      .error ("serial error, non ok response: " ++ response)

/-! ## StatusPoller: `wait_for_idle` (slider.py lines 127-136) -/

/-- Line 133: `resp.startswith("Idle")`, the loop exit test. -/
def wait_check (resp : String) : Bool := pyStartswith resp "Idle"

/-- The `wait_for_idle` loop run against a finite stream of poll
outcomes: `none` models an iteration in which `_send_command` raised
(the exception is swallowed and the loop retries), `some r` an
iteration that got sanitized status text `r`. Returns `true` when the
loop exits within the stream. -/
def wait_for_idle_terminates : List (Option String) → Bool
  | [] => false
  | none :: rest => wait_for_idle_terminates rest
  | some r :: rest => if wait_check r then true else wait_for_idle_terminates rest

/-! ## FilenameAllocator: `_acquire_filename` (slider.py lines 105-118) -/

/-- The candidate name for index `i`: `str(i).zfill(4) + FILE_EXTENSION`. -/
def candName (i : Nat) : String := zfill4 i ++ FILE_EXTENSION

/-- The `for i in range(0, 9999)` scan, over an explicit index list:
return the first candidate whose file does not exist. -/
def scanList (existsIn : String → Bool) : List Nat → Option String
  | [] => none
  | i :: rest =>
    let testname := candName i
    if existsIn testname then scanList existsIn rest else some testname

/-- The scan as the source performs it, over `range(0, 9999)`. -/
def acquireScan (existsIn : String → Bool) : Option String :=
  scanList existsIn (List.range 9999)

/-- A Python value as returned by `_acquire_filename` and tested by the
callers with `if filename is None`: either the `None` object or a
`(path, filename)` pair (whose second slot may itself be `None`). -/
inductive AcquireResult where
  | pyNone
  | pair (path : String) (name : Option String)
  deriving DecidableEq

/-- `_acquire_filename(path)` against the directory oracle `existsIn`:
scan candidates 0..9998 and return the tuple `(path, filename)`. -/
def acquire_filename (existsIn : String → Bool) (path : String) : AcquireResult :=
  .pair path (acquireScan existsIn)

/-- The callers' guard `if filename is None` (lines 383, 469). -/
def filename_is_none : AcquireResult → Bool
  | .pyNone => true
  | .pair _ _ => false

/-! ## SequencePlanner: the planning code of MODE_INTERVAL and
MODE_MACRO (slider.py lines 326-342 and 414-438), refactored into
named definitions. Positions are `(x, y, z)` triples. -/

/-- MODE_INTERVAL planning (lines 326-342): `step_size` per axis is
`delta/(input_shutter-1)` and `steps` collects
`[step_size[0]*i, step_size[1]*i, step_size[2]*i]` for
`i in range(0, input_shutter+1)`. -/
def interval_steps (input_shutter : Int) (x y z : Rat) : List (Rat × Rat × Rat) :=
  let d : Rat := (input_shutter : Rat) - 1
  (List.range (input_shutter + 1).toNat).map
    (fun i : Nat => (x / d * (i : Rat), y / d * (i : Rat), z / d * (i : Rat)))

/-- MODE_MACRO X-axis planning (lines 425-436): `step_size[0]` is
`x/(input_stack-1)` and `x_steps` collects `step_size[0]*i` for
`i in range(0, input_stack+1)`. -/
def macro_x_steps (input_stack : Int) (x : Rat) : List Rat :=
  (List.range (input_stack + 1).toNat).map
    (fun i : Nat => x / ((input_stack : Rat) - 1) * (i : Rat))

/-- MODE_MACRO outer planning (lines 428-438): Y/Z step sizes divide by
`(input_shutter-1)` only when `input_shutter > 1` (else they stay 0),
and `steps` collects `[x_steps, step_size[1]*i, step_size[2]*i]` for
`i in range(0, input_shutter+1)`. -/
def macro_steps (input_shutter input_stack : Int) (x y z : Rat) :
    List (List Rat × Rat × Rat) :=
  let ss1 : Rat := if input_shutter > 1 then y / ((input_shutter : Rat) - 1) else 0
  let ss2 : Rat := if input_shutter > 1 then z / ((input_shutter : Rat) - 1) else 0
  (List.range (input_shutter + 1).toNat).map
    (fun i : Nat => (macro_x_steps input_stack x, ss1 * (i : Rat), ss2 * (i : Rat)))

/-- Line 419-420: `if input_shutter is None or input_shutter < 1:
input_shutter = 1`. -/
def effShutter : Option Int → Int
  | none => 1
  | some s => if s < 1 then 1 else s

/-! ## ModeExecutor: the `__main__` flow as an event trace -/

/-- Observable actions of the process. `configCmd` is a non-motion
serial command (the GRBL setup commands; `"G1 F1000"` sets only the
feed rate and moves nothing), `moveCmd x y z feed` a `G1` motion
command with optional explicit feed rate, `waitIdle` one completed
`wait_for_idle()` call, `sleepE` a `time.sleep`, `captureE dir` one
camera capture into directory `dir`, `mkdirE` an `os.mkdir`, and
`closePorts` one `close_ports()` call. -/
inductive Event where
  | configCmd (cmd : String)
  | moveCmd (x y z : Rat) (feed : Option Nat)
  | waitIdle
  | sleepE (seconds : Rat)
  | captureE (dir : String)
  | mkdirE (dir : String)
  | closePorts
  deriving DecidableEq

/-- Lines 311-317: the fixed GRBL setup command list. -/
def grbl_setup_commands : List String :=
  ["G90", "G21", "G10 P0 L20 X0 Y0 Z0", "G1 F" ++ toString FEEDRATE]

/-- Lines 319-320: each setup command is sent through `_send_command`. -/
def setupEvents : List Event := grbl_setup_commands.map Event.configCmd

/-- Run a loop body over a list of indices, accumulating events and
stopping at the first body that raises (second component `some msg`). -/
def runSteps (f : Nat → List Event × Option String) : List Nat → List Event × Option String
  | [] => ([], none)
  | i :: rest =>
    match f i with
    | (evs, some e) => (evs, some e)
    | (evs, none) =>
      let r := runSteps f rest
      (evs ++ r.1, r.2)

/-- One iteration of the MODE_INTERVAL loop (lines 344-397): move to
`steps[i]` at FEEDRATE_SLOW, `wait_for_idle`, sleep PRE_CAPTURE_WAIT,
acquire a filename (guarded by `if filename is None`), capture into the
output directory, sleep POST_CAPTURE_WAIT. -/
def intervalStepEvents (steps : List (Rat × Rat × Rat)) (existsIn : String → Bool)
    (output_dir : String) (i : Nat) : List Event × Option String :=
  let p := steps.getD i (0, 0, 0)
  let pre : List Event :=
    [.moveCmd p.1 p.2.1 p.2.2 (some FEEDRATE_SLOW), .waitIdle, .sleepE PRE_CAPTURE_WAIT]
  match acquire_filename existsIn output_dir with
  | .pyNone => (pre, some "could not acquire filename")
  | .pair _ _ => (pre ++ [.captureE output_dir, .sleepE POST_CAPTURE_WAIT], none)

/-- The MODE_INTERVAL block (lines 324-408): shutter-count check,
planning, the capture loop over `range(0, input_shutter)`, then the
return-to-home move and final `wait_for_idle`. -/
def intervalMain (input_shutter : Int) (x y z : Rat) (existsIn : String → Bool)
    (output_dir : String) : List Event × Option String :=
  if input_shutter ≤ 1 then
    ([], some "interval needs to be at least 2")
  else
    let steps := interval_steps input_shutter x y z
    let r := runSteps (intervalStepEvents steps existsIn output_dir)
      (List.range input_shutter.toNat)
    match r.2 with
    | some e => (r.1, some e)
    | none => (r.1 ++ [.moveCmd 0 0 0 none, .waitIdle], none)

/-- One iteration of the MODE_MACRO inner loop (lines 455-480): move to
`(x_steps[j], y_i, z_i)` at FEEDRATE_SLOW, `wait_for_idle`, sleep
PRE_CAPTURE_WAIT, acquire a filename in the stack directory (guarded by
`if filename is None`), capture there, sleep POST_CAPTURE_WAIT. -/
def macroInnerEvents (xs : List Rat) (yi zi : Rat) (existsIn : String → Bool)
    (stackPath : String) (j : Nat) : List Event × Option String :=
  let pre : List Event :=
    [.moveCmd (xs.getD j 0) yi zi (some FEEDRATE_SLOW), .waitIdle, .sleepE PRE_CAPTURE_WAIT]
  match acquire_filename existsIn stackPath with
  | .pyNone => (pre, some "could not acquire filename")
  | .pair _ _ => (pre ++ [.captureE stackPath, .sleepE POST_CAPTURE_WAIT], none)

/-- One iteration of the MODE_MACRO outer loop (lines 442-482): create
the per-stack sub-directory `stack_{i}` (only attempted when the output
directory exists, lines 446-453), then run the inner loop over
`range(0, input_stack)`. -/
def macroOuterEvents (steps : List (List Rat × Rat × Rat)) (input_stack : Int)
    (existsIn : String → Bool) (output_dir : String) (outputDirExists : Bool)
    (i : Nat) : List Event × Option String :=
  let stack_dir := "stack_" ++ toString i
  let stackPath := output_dir ++ "/" ++ stack_dir
  let mk : List Event := if outputDirExists then [.mkdirE stackPath] else []
  let st := steps.getD i ([], 0, 0)
  let r := runSteps (macroInnerEvents st.1 st.2.1 st.2.2 existsIn stackPath)
    (List.range input_stack.toNat)
  (mk ++ r.1, r.2)

/-- The MODE_MACRO block (lines 410-493): shutter default, stack-count
check, planning, the nested capture loops, then the return-to-home move
and final `wait_for_idle`. -/
def macroMain (input_shutter_arg input_stack_arg : Option Int) (x y z : Rat)
    (existsIn : String → Bool) (output_dir : String) (outputDirExists : Bool) :
    List Event × Option String :=
  let input_shutter := effShutter input_shutter_arg
  match input_stack_arg with
  | none => ([], some "stack-count needs to be at least 2")
  | some input_stack =>
    if input_stack ≤ 1 then
      ([], some "stack-count needs to be at least 2")
    else
      let steps := macro_steps input_shutter input_stack x y z
      let r := runSteps
        (macroOuterEvents steps input_stack existsIn output_dir outputDirExists)
        (List.range input_shutter.toNat)
      match r.2 with
      | some e => (r.1, some e)
      | none => (r.1 ++ [.moveCmd 0 0 0 none, .waitIdle], none)

/-- The MODE_WAIT block (lines 507-515): sleep 10 seconds, then
`close_ports()` inside the mode block itself. -/
def waitMain : List Event × Option String := ([.sleepE 10, .closePorts], none)

/-- The GRBL setup commands (lines 319-320) run before the mode
dispatch; they precede the mode's own events and any error it raises. -/
def withSetup (m : List Event × Option String) : List Event × Option String :=
  (setupEvents ++ m.1, m.2)

/-- Process termination: on normal completion `close_ports()` at line
570 runs; on an uncaught exception the global excepthook (lines
121-123, installed at line 241) runs `close_ports()`. -/
def runProcess (m : List Event × Option String) : List Event :=
  match m with
  | (evs, none) => evs ++ [.closePorts]
  | (evs, some _) => evs ++ [.closePorts]

/-- Full process trace for an `interval` invocation. -/
def intervalProcess (input_shutter : Int) (x y z : Rat) (existsIn : String → Bool)
    (output_dir : String) : List Event :=
  runProcess (withSetup (intervalMain input_shutter x y z existsIn output_dir))

/-- Full process trace for a `macro` invocation. -/
def macroProcess (input_shutter_arg input_stack_arg : Option Int) (x y z : Rat)
    (existsIn : String → Bool) (output_dir : String) (outputDirExists : Bool) :
    List Event :=
  runProcess (withSetup (macroMain input_shutter_arg input_stack_arg x y z
    existsIn output_dir outputDirExists))

/-- Full process trace for a `wait` invocation. -/
def waitProcess : List Event := runProcess (withSetup waitMain)

/-- The MODE_MOVE block (lines 495-505): one move to the requested
position at FEEDRATE, then `wait_for_idle`. -/
def moveMain (x y z : Rat) : List Event × Option String :=
  ([.moveCmd x y z (some FEEDRATE), .waitIdle], none)

/-- Full process trace for a `move` invocation. -/
def moveProcess (x y z : Rat) : List Event := runProcess (withSetup (moveMain x y z))

/-- The MODE_VIDEO block (lines 517-539): one move to the requested
position at the requested feed rate, then `wait_for_idle`; no capture. -/
def videoMain (x y z : Rat) (feedrate : Nat) : List Event × Option String :=
  ([.moveCmd x y z (some feedrate), .waitIdle], none)

/-- Full process trace for a `video` invocation. -/
def videoProcess (x y z : Rat) (feedrate : Nat) : List Event :=
  runProcess (withSetup (videoMain x y z feedrate))

/-- The MODE_BOUNCE block (lines 541-565): a move to the requested
position and a move back to the origin, both at the requested feed
rate, each followed by `wait_for_idle`. -/
def bounceMain (x y z : Rat) (feedrate : Nat) : List Event × Option String :=
  ([.moveCmd x y z (some feedrate), .waitIdle,
    .moveCmd 0 0 0 (some feedrate), .waitIdle], none)

/-- Full process trace for a `bounce` invocation. -/
def bounceProcess (x y z : Rat) (feedrate : Nat) : List Event :=
  runProcess (withSetup (bounceMain x y z feedrate))

/-- Full process trace for a `disable` invocation (lines 266-272):
this branch runs before the GRBL setup block, sends the unlock command
`$X` (no motion), calls `close_ports()` itself, and `sys.exit()`s —
so neither the final close at line 570 nor the excepthook runs. -/
def disableProcess : List Event := [.configCmd "$X", .closePorts]

/-! ## Trace observations -/

/-- Does this event command motion? Only `G1` commands with axis words
move the machine; the setup command `G1 F1000` (a bare feed-rate
change) does not. -/
def isMotion : Event → Bool
  | .moveCmd _ _ _ _ => true
  | _ => false

/-- Is this event a camera capture? -/
def isCapture : Event → Bool
  | .captureE _ => true
  | _ => false

/-- Is this event a capture into directory `dir`? -/
def isCaptureIn (dir : String) : Event → Bool
  | .captureE d => d == dir
  | _ => false

/-- Is this event a `close_ports()` call? -/
def isClose : Event → Bool
  | .closePorts => true
  | _ => false

/-- Count the events satisfying `p`. -/
def countE (p : Event → Bool) (l : List Event) : Nat := (l.filter p).length

/-- Machine-busy state transition: a motion command leaves the
controller running, a completed `wait_for_idle` confirms idle, nothing
else changes the motion state. -/
def busyAfter (e : Event) (b : Bool) : Bool :=
  match e with
  | .moveCmd _ _ _ _ => true
  | .waitIdle => false
  | _ => b

/-- The busy state after running a whole trace from state `b`. -/
def finalBusy (l : List Event) (b : Bool) : Bool :=
  l.foldl (fun s e => busyAfter e s) b

/-- The core ordering check: scanning the trace with the busy state, a
motion command or a capture issued while a previous move is still
unconfirmed is an overlap violation. -/
def noOverlapAux : List Event → Bool → Bool
  | [], _ => true
  | e :: rest, b =>
    match e with
    | .moveCmd _ _ _ _ => !b && noOverlapAux rest true
    | .waitIdle => noOverlapAux rest false
    | .captureE _ => !b && noOverlapAux rest b
    | _ => noOverlapAux rest b

/-- A trace never overlaps a move or capture with an in-flight move. -/
def noOverlap (l : List Event) : Bool := noOverlapAux l false

/-- The move / wait-for-idle / capture backbone of a trace (sleeps,
directory bookkeeping and port bookkeeping erased). -/
inductive Skel where
  | mv
  | idle
  | cap
  deriving DecidableEq

/-- Project a trace to its motion/synchronization/capture backbone. -/
def skeleton (l : List Event) : List Skel :=
  l.filterMap fun e =>
    match e with
    | .moveCmd _ _ _ _ => some .mv
    | .waitIdle => some .idle
    | .captureE _ => some .cap
    | _ => none

/-- A trace fragment that passes the overlap check starting idle and
leaves the machine confirmed idle. -/
def ok0 (l : List Event) : Prop :=
  noOverlapAux l false = true ∧ finalBusy l false = false

/-- The directory oracle for a directory holding exactly the files
0000 .. 0041 (with the fixed extension). -/
def dir42 : String → Bool := fun s => (List.range 42).any fun i => s == candName i

/-! ## Helper lemmas -/

theorem finalBusy_append (l₁ l₂ : List Event) (b : Bool) :
    finalBusy (l₁ ++ l₂) b = finalBusy l₂ (finalBusy l₁ b) := by
  simp [finalBusy, List.foldl_append]

theorem noOverlapAux_append (l₁ l₂ : List Event) (b : Bool) :
    noOverlapAux (l₁ ++ l₂) b =
      (noOverlapAux l₁ b && noOverlapAux l₂ (finalBusy l₁ b)) := by
  induction l₁ generalizing b with
  | nil => simp [noOverlapAux, finalBusy]
  | cons e rest ih =>
    cases e <;>
      simp [noOverlapAux, finalBusy, busyAfter, List.foldl_cons, ih, Bool.and_assoc]

theorem ok0_append {l₁ l₂ : List Event} (h1 : ok0 l₁) (h2 : ok0 l₂) :
    ok0 (l₁ ++ l₂) := by
  refine ⟨?_, ?_⟩
  · rw [noOverlapAux_append, h1.1, h1.2, h2.1]; rfl
  · rw [finalBusy_append, h1.2, h2.2]

theorem ok0_flatMap {g : Nat → List Event} {l : List Nat}
    (h : ∀ i ∈ l, ok0 (g i)) : ok0 (l.flatMap g) := by
  induction l with
  | nil => exact ⟨rfl, rfl⟩
  | cons i rest ih =>
    rw [List.flatMap_cons]
    exact ok0_append (h i (by simp)) (ih fun j hj => h j (by simp [hj]))

theorem countE_append (p : Event → Bool) (l₁ l₂ : List Event) :
    countE p (l₁ ++ l₂) = countE p l₁ + countE p l₂ := by
  simp [countE, List.filter_append]

theorem countE_flatMap_const (p : Event → Bool) (g : Nat → List Event)
    (c : Nat) : ∀ l : List Nat, (∀ i ∈ l, countE p (g i) = c) →
    countE p (l.flatMap g) = l.length * c := by
  intro l h
  induction l with
  | nil => simp [countE]
  | cons i rest ih =>
    rw [List.flatMap_cons, countE_append, h i (by simp),
      ih fun j hj => h j (by simp [hj])]
    simp [List.length_cons]
    ring

theorem runSteps_ok (f : Nat → List Event × Option String) :
    ∀ l : List Nat, (∀ i ∈ l, (f i).2 = none) →
    runSteps f l = (l.flatMap fun i => (f i).1, none) := by
  intro l h
  induction l with
  | nil => simp [runSteps]
  | cons i rest ih =>
    have hi : (f i).2 = none := h i (by simp)
    have hrest := ih fun j hj => h j (by simp [hj])
    rcases hfi : f i with ⟨evs, err⟩
    rw [hfi] at hi
    subst hi
    simp [runSteps, hfi, hrest, List.flatMap_cons]

theorem getD_range_map {α : Type} (f : Nat → α) (m i : Nat) (d : α)
    (h : i < m) : ((List.range m).map f).getD i d = f i := by
  simp [List.getD_eq_getElem?_getD, List.getElem?_map, List.getElem?_range h]

/-! ## Shape facts about the mode traces -/

theorem intervalStep_err (steps : List (Rat × Rat × Rat)) (fs : String → Bool)
    (od : String) (i : Nat) : (intervalStepEvents steps fs od i).2 = none := rfl

theorem intervalStep_ok0 (steps : List (Rat × Rat × Rat)) (fs : String → Bool)
    (od : String) (i : Nat) : ok0 (intervalStepEvents steps fs od i).1 :=
  ⟨rfl, rfl⟩

theorem intervalStep_captures (steps : List (Rat × Rat × Rat)) (fs : String → Bool)
    (od : String) (i : Nat) : countE isCapture (intervalStepEvents steps fs od i).1 = 1 := rfl

theorem intervalStep_closes (steps : List (Rat × Rat × Rat)) (fs : String → Bool)
    (od : String) (i : Nat) : countE isClose (intervalStepEvents steps fs od i).1 = 0 := rfl

theorem macroInner_err (xs : List Rat) (yi zi : Rat) (fs : String → Bool)
    (sp : String) (j : Nat) : (macroInnerEvents xs yi zi fs sp j).2 = none := rfl

theorem macroInner_ok0 (xs : List Rat) (yi zi : Rat) (fs : String → Bool)
    (sp : String) (j : Nat) : ok0 (macroInnerEvents xs yi zi fs sp j).1 :=
  ⟨rfl, rfl⟩

theorem macroInner_captures (xs : List Rat) (yi zi : Rat) (fs : String → Bool)
    (sp : String) (j : Nat) : countE isCapture (macroInnerEvents xs yi zi fs sp j).1 = 1 := rfl

theorem macroInner_closes (xs : List Rat) (yi zi : Rat) (fs : String → Bool)
    (sp : String) (j : Nat) : countE isClose (macroInnerEvents xs yi zi fs sp j).1 = 0 := rfl

/-- Normal form of one macro outer iteration: the optional mkdir, then
the inner capture loop, and no exception. -/
theorem macroOuter_eq (steps : List (List Rat × Rat × Rat)) (stck : Int)
    (fs : String → Bool) (od : String) (de : Bool) (i : Nat) :
    macroOuterEvents steps stck fs od de i =
      ((if de then [Event.mkdirE (od ++ "/" ++ ("stack_" ++ toString i))] else []) ++
        (List.range stck.toNat).flatMap
          (fun j => (macroInnerEvents (steps.getD i ([], 0, 0)).1
            (steps.getD i ([], 0, 0)).2.1 (steps.getD i ([], 0, 0)).2.2 fs
            (od ++ "/" ++ ("stack_" ++ toString i)) j).1),
       none) := by
  have h := runSteps_ok
    (macroInnerEvents (steps.getD i ([], 0, 0)).1 (steps.getD i ([], 0, 0)).2.1
      (steps.getD i ([], 0, 0)).2.2 fs (od ++ "/" ++ ("stack_" ++ toString i)))
    (List.range stck.toNat) (fun j _ => macroInner_err _ _ _ _ _ _)
  simp only [macroOuterEvents]
  rw [h]

theorem macroOuter_err (steps : List (List Rat × Rat × Rat)) (stck : Int)
    (fs : String → Bool) (od : String) (de : Bool) (i : Nat) :
    (macroOuterEvents steps stck fs od de i).2 = none := by
  rw [macroOuter_eq]

theorem macroOuter_ok0 (steps : List (List Rat × Rat × Rat)) (stck : Int)
    (fs : String → Bool) (od : String) (de : Bool) (i : Nat) :
    ok0 (macroOuterEvents steps stck fs od de i).1 := by
  rw [macroOuter_eq]
  cases de <;>
    exact ok0_append ⟨rfl, rfl⟩ (ok0_flatMap fun j _ => macroInner_ok0 _ _ _ _ _ _)

theorem macroOuter_captures (steps : List (List Rat × Rat × Rat)) (stck : Int)
    (fs : String → Bool) (od : String) (de : Bool) (i : Nat) :
    countE isCapture (macroOuterEvents steps stck fs od de i).1 = stck.toNat := by
  rw [macroOuter_eq]
  simp only [countE_append]
  rw [countE_flatMap_const isCapture _ 1 _
    (fun j _ => macroInner_captures _ _ _ _ _ _)]
  cases de <;> simp [countE, isCapture, List.length_range]

theorem macroOuter_closes (steps : List (List Rat × Rat × Rat)) (stck : Int)
    (fs : String → Bool) (od : String) (de : Bool) (i : Nat) :
    countE isClose (macroOuterEvents steps stck fs od de i).1 = 0 := by
  rw [macroOuter_eq]
  simp only [countE_append]
  rw [countE_flatMap_const isClose _ 0 _ (fun j _ => macroInner_closes _ _ _ _ _ _)]
  cases de <;> simp [countE, isClose]

/-! ## Lemmas about the filename scan -/

theorem scanList_range'_spec (existsIn : String → Bool) :
    ∀ (n s : Nat) (name : String),
      scanList existsIn (List.range' s n) = some name →
      ∃ i, s ≤ i ∧ i < s + n ∧ name = candName i ∧
        existsIn (candName i) = false ∧
        ∀ j, s ≤ j → j < i → existsIn (candName j) = true := by
  intro n
  induction n with
  | zero =>
    intro s name h
    simp [List.range', scanList] at h
  | succ m ih =>
    intro s name h
    rw [List.range'_succ] at h
    simp only [scanList] at h
    rcases hex : existsIn (candName s) with _ | _
    · rw [hex] at h
      simp at h
      exact ⟨s, le_refl s, by omega, h.symm, hex,
        fun j h1 h2 => absurd h2 (by omega)⟩
    · rw [hex] at h
      simp at h
      obtain ⟨i, hi1, hi2, hi3, hi4, hi5⟩ := ih (s + 1) name h
      refine ⟨i, by omega, by omega, hi3, hi4, fun j h1 h2 => ?_⟩
      rcases Nat.eq_or_lt_of_le h1 with heq | hlt
      · rw [← heq]; exact hex
      · exact hi5 j (by omega) h2

theorem acquireScan_spec (existsIn : String → Bool) (name : String)
    (h : acquireScan existsIn = some name) :
    existsIn name = false ∧ ∃ i, i < 9999 ∧ name = candName i ∧
      ∀ j, j < i → existsIn (candName j) = true := by
  rw [acquireScan, List.range_eq_range'] at h
  obtain ⟨i, _, hi2, hi3, hi4, hi5⟩ := scanList_range'_spec existsIn 9999 0 name h
  subst hi3
  exact ⟨hi4, i, by omega, rfl, fun j hj => hi5 j (by omega) hj⟩

/-- The scan finds exactly the first free candidate: if candidate `i`
is free and every candidate before it (within the scanned window) is
taken, the scan over `range' s n` returns `candName i`. -/
theorem scanList_range'_finds (existsIn : String → Bool) :
    ∀ (n s i : Nat), s ≤ i → i < s + n →
      existsIn (candName i) = false →
      (∀ j, s ≤ j → j < i → existsIn (candName j) = true) →
      scanList existsIn (List.range' s n) = some (candName i) := by
  intro n
  induction n with
  | zero => intro s i h1 h2 _ _; omega
  | succ m ih =>
    intro s i h1 h2 hfree hprior
    rw [List.range'_succ]
    simp only [scanList]
    rcases Nat.eq_or_lt_of_le h1 with heq | hlt
    · rw [heq, hfree]
      simp
    · rw [hprior s (le_refl s) hlt]
      simp only [if_true]
      exact ih (s + 1) i (by omega) (by omega) hfree
        fun j hj1 hj2 => hprior j (by omega) hj2

theorem scanList_all (existsIn : String → Bool) :
    ∀ l : List Nat, (∀ i ∈ l, existsIn (candName i) = true) →
    scanList existsIn l = none := by
  intro l h
  induction l with
  | nil => rfl
  | cons i rest ih =>
    simp only [scanList, h i (by simp), if_true]
    exact ih fun j hj => h j (by simp [hj])

/-! ## Lemmas about the Python string operations -/

theorem isPrefixOf_ok_len (l : List Char) (h : List.isPrefixOf ['o', 'k'] l = true) :
    2 ≤ l.length := by
  match l with
  | [] => simp [List.isPrefixOf] at h
  | [a] => simp [List.isPrefixOf] at h
  | a :: b :: t => simp only [List.length_cons]; omega

theorem pyStartswith_ok_len (s : String) (h : pyStartswith s "ok" = true) :
    2 ≤ pyLen s :=
  isPrefixOf_ok_len s.data h

theorem stripEcho_data_nil (cmd s : String) (h : s.data = []) :
    (stripEcho cmd s).data = [] := by
  rw [stripEcho]
  split
  · simp [pyDrop, h]
  · exact h

/-- Normal form of a valid interval run: the capture loop followed by
the homing move, and no exception. -/
theorem intervalMain_eq (sc : Int) (x y z : Rat) (fs : String → Bool)
    (od : String) (h : ¬ sc ≤ 1) :
    intervalMain sc x y z fs od =
      ((List.range sc.toNat).flatMap
          (fun i => (intervalStepEvents (interval_steps sc x y z) fs od i).1) ++
        [.moveCmd 0 0 0 none, .waitIdle],
       none) := by
  have hr := runSteps_ok (intervalStepEvents (interval_steps sc x y z) fs od)
    (List.range sc.toNat) (fun i _ => intervalStep_err _ _ _ _)
  simp [intervalMain, h, hr]

/-- Normal form of a valid macro run: the nested loops followed by the
homing move, and no exception. -/
theorem macroMain_eq (sh : Option Int) (st : Int) (x y z : Rat)
    (fs : String → Bool) (od : String) (de : Bool) (h : ¬ st ≤ 1) :
    macroMain sh (some st) x y z fs od de =
      ((List.range (effShutter sh).toNat).flatMap
          (fun i => (macroOuterEvents
            (macro_steps (effShutter sh) st x y z) st fs od de i).1) ++
        [.moveCmd 0 0 0 none, .waitIdle],
       none) := by
  have hr := runSteps_ok
    (macroOuterEvents (macro_steps (effShutter sh) st x y z) st fs od de)
    (List.range (effShutter sh).toNat) (fun i _ => macroOuter_err _ _ _ _ _ _)
  simp [macroMain, h, hr]

/-- Normal form of the whole process trace for a valid interval run. -/
theorem intervalProcess_eq (sc : Int) (x y z : Rat) (fs : String → Bool)
    (dir : String) (h : ¬ sc ≤ 1) :
    intervalProcess sc x y z fs dir =
      (setupEvents ++ (((List.range sc.toNat).flatMap fun i =>
        (intervalStepEvents (interval_steps sc x y z) fs dir i).1) ++
        [Event.moveCmd 0 0 0 none, Event.waitIdle])) ++ [Event.closePorts] := by
  simp only [intervalProcess]
  rw [intervalMain_eq sc x y z fs dir h]
  simp only [withSetup, runProcess]

/-- Normal form of the process trace when the interval shutter-count
check fails: the setup commands, the exception, the excepthook close. -/
theorem intervalProcess_eq_err (sc : Int) (x y z : Rat) (fs : String → Bool)
    (dir : String) (h : sc ≤ 1) :
    intervalProcess sc x y z fs dir = setupEvents ++ [Event.closePorts] := by
  simp [intervalProcess, intervalMain, if_pos h, withSetup, runProcess]

/-- Normal form of the whole process trace for a valid macro run. -/
theorem macroProcess_eq (sh : Option Int) (st : Int) (x y z : Rat)
    (fs : String → Bool) (dir : String) (de : Bool) (h : ¬ st ≤ 1) :
    macroProcess sh (some st) x y z fs dir de =
      (setupEvents ++ (((List.range (effShutter sh).toNat).flatMap fun i =>
        (macroOuterEvents (macro_steps (effShutter sh) st x y z) st fs dir de i).1) ++
        [Event.moveCmd 0 0 0 none, Event.waitIdle])) ++ [Event.closePorts] := by
  simp only [macroProcess]
  rw [macroMain_eq sh st x y z fs dir de h]
  simp only [withSetup, runProcess]

/-- Normal form of the process trace when the macro stack-count check
fails (stack count absent or at most 1). -/
theorem macroProcess_eq_err (sh st : Option Int) (x y z : Rat)
    (fs : String → Bool) (dir : String) (de : Bool)
    (h : ∀ s, st = some s → s ≤ 1) :
    macroProcess sh st x y z fs dir de = setupEvents ++ [Event.closePorts] := by
  cases st with
  | none => simp [macroProcess, macroMain, withSetup, runProcess]
  | some s => simp [macroProcess, macroMain, withSetup, runProcess, if_pos (h s rfl)]

theorem setup_ok0 : ok0 setupEvents := ⟨rfl, rfl⟩

theorem home_ok0 : ok0 [Event.moveCmd 0 0 0 none, Event.waitIdle] := ⟨rfl, rfl⟩

theorem close_ok0 : ok0 [Event.closePorts] := ⟨rfl, rfl⟩

/-! ## The claims -/

/-- Against the 0000..0041 directory, the scan returns "0042" plus the
fixed extension. -/
theorem acquireScan_dir42 : acquireScan dir42 = some ("0042" ++ FILE_EXTENSION) := by
  rw [acquireScan, List.range_eq_range']
  rw [show ("0042" ++ FILE_EXTENSION) = candName 42 from by decide]
  refine scanList_range'_finds dir42 9999 0 42 (by omega) (by omega) (by decide) ?_
  intro j _ hj
  have hmem : ∀ k ∈ List.range 42, dir42 (candName k) = true := by decide
  exact hmem j (List.mem_range.mpr hj)

/-- C4: the filename allocator never returns a name that already exists
in the target directory at call time; it returns the first (lowest
index) free candidate; and against a directory containing exactly
files 0000 through 0041 it returns "0042" plus the fixed extension. -/
theorem c4_allocator_first_free :
    (∀ (existsIn : String → Bool) (name : String),
      acquireScan existsIn = some name →
        existsIn name = false ∧ ∃ i, i < 9999 ∧ name = candName i ∧
          ∀ j, j < i → existsIn (candName j) = true)
    ∧ acquire_filename dir42 "outdir" =
        .pair "outdir" (some ("0042" ++ FILE_EXTENSION)) :=
  ⟨fun existsIn name h => acquireScan_spec existsIn name h,
   by simp [acquire_filename, acquireScan_dir42]⟩

/-- Witness for C4 at the concrete 0000..0041 directory: the returned
name does not exist there. -/
theorem c4_witness : dir42 ("0042" ++ FILE_EXTENSION) = false :=
  (c4_allocator_first_free.1 dir42 ("0042" ++ FILE_EXTENSION) acquireScan_dir42).1

/-- C5 (showing the code bug): on a directory where every candidate the
code scans already exists, `_acquire_filename` returns the tuple
`(path, None)` and raises nothing — there is no Exhausted error — and
the scan stops at index 9998: `range(0, 9999)` visits only 9999
candidates, so a name 9999 is never probed. -/
theorem c5_exhaustion_behavior :
    acquire_filename (fun _ => true) "p" = .pair "p" none ∧
    (List.range 9999).getLast? = some 9998 := by
  constructor
  · have h : acquireScan (fun _ => true) = none :=
      scanList_all _ _ fun i _ => rfl
    simp [acquire_filename, h]
  · have h : (9999 : Nat) = 9998 + 1 := by norm_num
    rw [h, List.range_succ]
    exact List.getLast?_concat _

/-- C6 counterexample: the claim says the poller must not terminate on
a leading token such as "Idlewait", but the code's
`resp.startswith("Idle")` is a prefix match on the whole sanitized
response, so it does terminate there. -/
theorem c6_counterexample : wait_for_idle_terminates [some "Idlewait"] = true := by
  decide

/-- C6 amended: `wait_for_idle` terminates exactly when some poll
response (failures being swallowed) starts with the prefix "Idle",
case-sensitively — including responses such as "Idlewait" that merely
extend the prefix. -/
theorem c6_amended_prefix_match (resps : List (Option String)) :
    wait_for_idle_terminates resps = true ↔
      ∃ r : String, some r ∈ resps ∧ wait_check r = true := by
  induction resps with
  | nil => simp [wait_for_idle_terminates]
  | cons o rest ih =>
    cases o with
    | none =>
      rw [show wait_for_idle_terminates (none :: rest) =
        wait_for_idle_terminates rest from rfl, ih]
      constructor
      · rintro ⟨r, hr, hcr⟩; exact ⟨r, by simp [hr], hcr⟩
      · rintro ⟨r, hr, hcr⟩
        rcases List.mem_cons.mp hr with heq | hmem
        · exact absurd heq (by simp)
        · exact ⟨r, hmem, hcr⟩
    | some r0 =>
      simp only [wait_for_idle_terminates]
      by_cases hc : wait_check r0
      · rw [if_pos hc]
        constructor
        · intro _; exact ⟨r0, by simp, hc⟩
        · intro _; rfl
      · rw [if_neg hc, ih]
        constructor
        · rintro ⟨r, hr, hcr⟩; exact ⟨r, by simp [hr], hcr⟩
        · rintro ⟨r, hr, hcr⟩
          rcases List.mem_cons.mp hr with heq | hmem
          · injection heq with heq
            subst heq
            exact absurd hcr hc
          · exact ⟨r, hmem, hcr⟩

/-- Witness for C6 amended: a genuine "Idle MPos.." status after one
swallowed failure does terminate the loop. -/
theorem c6_witness :
    wait_for_idle_terminates [none, some "Idle MPos17.530"] = true :=
  (c6_amended_prefix_match [none, some "Idle MPos17.530"]).mpr
    ⟨"Idle MPos17.530", by decide, by decide⟩

/-- C7 counterexample: for the sanitized response "ok" the remainder
after the "ok" token is empty, but the code returns the empty string
(`response[3:]` with `len(response) > 1`), not None — the None branch
is unreachable once the response starts with "ok". -/
theorem c7_counterexample :
    send_command "G90" "ok" = .ok (some "") ∧
    send_command "G90" "ok" ≠ .ok none := by
  constructor
  · rfl
  · intro h
    rw [show send_command "G90" "ok" = .ok (some "") from rfl] at h
    exact Option.noConfusion (Except.ok.inj h)

/-- C7 amended: for every non-status command whose sanitized,
echo-stripped response starts with "ok", send succeeds and returns the
substring after the first three characters (never None; an empty
remainder is returned as the empty string). -/
theorem c7_amended (cmd raw : String) (h1 : ¬ cmd = "?")
    (h2 : pyStartswith (stripEcho cmd (sanitize raw)) "ok" = true) :
    send_command cmd raw = .ok (some (pyDrop (stripEcho cmd (sanitize raw)) 3)) := by
  have hlen : 2 ≤ pyLen (stripEcho cmd (sanitize raw)) := pyStartswith_ok_len _ h2
  have hs0 : ¬ pyLen (sanitize raw) = 0 := by
    intro h0
    have hdata : (sanitize raw).data = [] := List.length_eq_zero.mp h0
    have hstrip : (stripEcho cmd (sanitize raw)).data = [] :=
      stripEcho_data_nil cmd _ hdata
    rw [pyLen, hstrip] at hlen
    simp at hlen
  simp only [send_command]
  rw [if_neg hs0, if_neg h1, if_pos h2,
    if_pos (by omega : pyLen (stripEcho cmd (sanitize raw)) > 1)]

/-- Witness for C7 amended: control-character noise around an "ok"
payload is stripped by sanitization and the response still parses. -/
theorem c7_witness :
    (¬ "G90" = "?") ∧
    pyStartswith (stripEcho "G90" (sanitize "\x02ok A1.5\x07")) "ok" = true ∧
    send_command "G90" "\x02ok A1.5\x07" =
      .ok (some (pyDrop (stripEcho "G90" (sanitize "\x02ok A1.5\x07")) 3)) :=
  ⟨by decide, by decide, c7_amended "G90" "\x02ok A1.5\x07" (by decide) (by decide)⟩

/-- C10: `_acquire_filename` always returns a `(path, name)` pair and
never the None object, so the callers' `if filename is None` guard
never fires — even when every candidate exists — and the
"could not acquire filename" branch is unreachable in both interval and
macro runs, for every directory state. -/
theorem c10_guard_never_fires :
    (∀ (existsIn : String → Bool) (path : String),
        filename_is_none (acquire_filename existsIn path) = false) ∧
    filename_is_none (acquire_filename (fun _ => true) "p") = false ∧
    (∀ (sc : Int) (x y z : Rat) (fs : String → Bool) (dir : String),
        (withSetup (intervalMain sc x y z fs dir)).2 ≠
          some "could not acquire filename") ∧
    (∀ (sh st : Option Int) (x y z : Rat) (fs : String → Bool) (dir : String)
        (de : Bool),
        (withSetup (macroMain sh st x y z fs dir de)).2 ≠
          some "could not acquire filename") := by
  refine ⟨fun _ _ => rfl, rfl, ?_, ?_⟩
  · intro sc x y z fs dir h
    by_cases hsc : sc ≤ 1
    · have hv : (withSetup (intervalMain sc x y z fs dir)).2 =
          some "interval needs to be at least 2" := by
        simp [withSetup, intervalMain, hsc]
      rw [hv] at h
      exact absurd (Option.some.inj h) (by decide)
    · rw [withSetup, intervalMain_eq sc x y z fs dir hsc] at h
      exact Option.noConfusion h
  · intro sh st x y z fs dir de h
    cases st with
    | none =>
      have hv : (withSetup (macroMain sh none x y z fs dir de)).2 =
          some "stack-count needs to be at least 2" := by
        simp [withSetup, macroMain]
      rw [hv] at h
      exact absurd (Option.some.inj h) (by decide)
    | some s =>
      by_cases hs : s ≤ 1
      · have hv : (withSetup (macroMain sh (some s) x y z fs dir de)).2 =
            some "stack-count needs to be at least 2" := by
          simp [withSetup, macroMain, hs]
        rw [hv] at h
        exact absurd (Option.some.inj h) (by decide)
      · rw [withSetup, macroMain_eq sh s x y z fs dir de hs] at h
        exact Option.noConfusion h

/-- Witness for C10 on the fully-occupied directory. -/
theorem c10_witness : filename_is_none (acquire_filename (fun _ => true) "q") = false :=
  c10_guard_never_fires.1 (fun _ => true) "q"

/-- C1: in every capture-bearing run (interval and macro), for each
step the move command is issued, then the idle confirmation is
received, then the capture is performed, and no move or capture is ever
issued while a previous move is unconfirmed. The third and fourth
conjuncts show the per-step move/idle/capture backbone concretely for
the canonical interval scenario (shutter-count 3: three move/idle/cap
blocks, then the homing move and its idle wait) and for the canonical
macro scenario (shutter-count 2, stack-count 4: two runs of four
move/idle/cap blocks, then homing). -/
theorem c1_sequential_no_overlap :
    (∀ (sc : Int) (x y z : Rat) (fs : String → Bool) (dir : String),
        noOverlap (intervalProcess sc x y z fs dir) = true) ∧
    (∀ (sh st : Option Int) (x y z : Rat) (fs : String → Bool) (dir : String)
        (de : Bool), noOverlap (macroProcess sh st x y z fs dir de) = true) ∧
    skeleton (intervalProcess 3 10 0 0 (fun _ => false) "out") =
      [.mv, .idle, .cap, .mv, .idle, .cap, .mv, .idle, .cap, .mv, .idle] ∧
    skeleton (macroProcess (some 2) (some 4) 6 0 0 (fun _ => false) "out" true) =
      ([.mv, .idle, .cap, .mv, .idle, .cap, .mv, .idle, .cap, .mv, .idle, .cap] ++
       [.mv, .idle, .cap, .mv, .idle, .cap, .mv, .idle, .cap, .mv, .idle, .cap] ++
       [.mv, .idle]) := by
  refine ⟨?_, ?_, by decide, by decide⟩
  · intro sc x y z fs dir
    by_cases hsc : sc ≤ 1
    · rw [intervalProcess_eq_err sc x y z fs dir hsc]
      decide
    · rw [noOverlap, intervalProcess_eq sc x y z fs dir hsc]
      exact (ok0_append (ok0_append setup_ok0 (ok0_append
        (ok0_flatMap fun i _ => intervalStep_ok0 _ _ _ _) home_ok0)) close_ok0).1
  · intro sh st x y z fs dir de
    cases st with
    | none =>
      rw [macroProcess_eq_err sh none x y z fs dir de (fun s hs => nomatch hs)]
      decide
    | some s =>
      by_cases hs1 : s ≤ 1
      · rw [macroProcess_eq_err sh (some s) x y z fs dir de
          (fun t ht => (Option.some.inj ht) ▸ hs1)]
        decide
      · rw [noOverlap, macroProcess_eq sh s x y z fs dir de hs1]
        exact (ok0_append (ok0_append setup_ok0 (ok0_append
          (ok0_flatMap fun i _ => macroOuter_ok0 _ _ _ _ _ _) home_ok0)) close_ok0).1

/-- C2 counterexample: the claim says interval planning for
shutter-count 3 produces exactly 3 steps, but the code's `steps` list
(`for i in range(0, input_shutter+1)`) holds 4 positions. -/
theorem c2_counterexample : ¬ ((interval_steps 3 10 0 0).length = 3) := by decide

/-- C2 amended: interval planning computes N+1 interpolated positions;
only the first N are executed, and those are linearly spaced with
step 0 at the origin and step N-1 at the full requested delta. -/
theorem c2_amended (sc : Int) (x y z : Rat) (h : 2 ≤ sc) :
    (interval_steps sc x y z).length = sc.toNat + 1 ∧
    (interval_steps sc x y z).take sc.toNat =
      (List.range sc.toNat).map (fun i : Nat =>
        (x / ((sc : Rat) - 1) * (i : Rat), y / ((sc : Rat) - 1) * (i : Rat),
         z / ((sc : Rat) - 1) * (i : Rat))) ∧
    (interval_steps sc x y z).getD 0 (0, 0, 0) = (0, 0, 0) ∧
    (interval_steps sc x y z).getD (sc.toNat - 1) (0, 0, 0) = (x, y, z) := by
  have hn : (sc + 1).toNat = sc.toNat + 1 := by omega
  have hsc : ((sc.toNat : Nat) : Rat) = (sc : Rat) := by
    exact_mod_cast Int.toNat_of_nonneg (by omega : (0 : Int) ≤ sc)
  have hd : ((sc : Rat) - 1) ≠ 0 := by
    have h2 : (2 : Rat) ≤ (sc : Rat) := by exact_mod_cast h
    intro h0
    rw [sub_eq_zero] at h0
    rw [h0] at h2
    norm_num at h2
  refine ⟨?_, ?_, ?_, ?_⟩
  · simp only [interval_steps, List.length_map, List.length_range, hn]
  · simp only [interval_steps]
    rw [hn, ← List.map_take, List.take_range,
      show min sc.toNat (sc.toNat + 1) = sc.toNat from by omega]
  · simp only [interval_steps]
    rw [getD_range_map _ _ _ _ (by omega)]
    norm_num
  · simp only [interval_steps]
    rw [getD_range_map _ _ _ _ (by omega : sc.toNat - 1 < (sc + 1).toNat)]
    have hcast : ((sc.toNat - 1 : Nat) : Rat) = (sc : Rat) - 1 := by
      have h1 : (1 : Nat) ≤ sc.toNat := by omega
      rw [Nat.cast_sub h1, hsc, Nat.cast_one]
    rw [hcast, div_mul_cancel₀ x hd, div_mul_cancel₀ y hd, div_mul_cancel₀ z hd]

/-- Witness for C2 amended at the canonical scenario (shutter-count 3,
x = 10): the executed positions are the origin, the midpoint, and the
full delta. -/
theorem c2_witness :
    (2 ≤ (3 : Int)) ∧
    (interval_steps 3 10 0 0).take (3 : Int).toNat =
      [(0, 0, 0), (5, 0, 0), (10, 0, 0)] := by
  refine ⟨by decide, ?_⟩
  rw [(c2_amended 3 10 0 0 (by decide)).2.1]
  rw [show List.range (3 : Int).toNat = [0, 1, 2] from by decide]
  simp
  norm_num

/-- C3 counterexample: the claim says macro planning for
shutter-count 2 produces exactly 2 outer steps, but the code's `steps`
list (`for i in range(0, input_shutter+1)`) holds 3. -/
theorem c3_counterexample : ¬ ((macro_steps 2 4 6 0 0).length = 2) := by decide

/-- C3 amended: macro planning computes N+1 outer entries each holding
S+1 X positions; the run executes N outer iterations of S inner steps
each, so a full run performs exactly N·S captures, one sub-directory
per outer step. The concrete conjuncts show the canonical scenario
(stack-count 4, shutter-count 2, x = 6): two stack directories, four
captures each, at X positions 0, 2, 4, 6. -/
theorem c3_amended :
    (∀ (sh : Option Int) (st : Int) (x y z : Rat) (fs : String → Bool)
        (dir : String) (de : Bool), 2 ≤ st →
        countE isCapture (macroProcess sh (some st) x y z fs dir de) =
          (effShutter sh).toNat * st.toNat) ∧
    (∀ (sh st : Int) (x y z : Rat), 1 ≤ sh → 2 ≤ st →
        (macro_steps sh st x y z).length = sh.toNat + 1 ∧
        ∀ p ∈ macro_steps sh st x y z, p.1.length = st.toNat + 1) ∧
    countE (isCaptureIn "out/stack_0")
      (macroProcess (some 2) (some 4) 6 0 0 (fun _ => false) "out" true) = 4 ∧
    countE (isCaptureIn "out/stack_1")
      (macroProcess (some 2) (some 4) 6 0 0 (fun _ => false) "out" true) = 4 ∧
    countE isCapture
      (macroProcess (some 2) (some 4) 6 0 0 (fun _ => false) "out" true) = 8 ∧
    (macro_x_steps 4 6).take (4 : Int).toNat = [0, 2, 4, 6] := by
  refine ⟨?_, ?_, by decide, by decide, by decide, ?_⟩
  · intro sh st x y z fs dir de hst
    rw [macroProcess_eq sh st x y z fs dir de (by omega)]
    simp only [countE_append]
    rw [countE_flatMap_const isCapture _ st.toNat _
      (fun i _ => macroOuter_captures _ _ _ _ _ _),
      show countE isCapture setupEvents = 0 from rfl,
      show countE isCapture [Event.moveCmd 0 0 0 none, Event.waitIdle] = 0 from rfl,
      show countE isCapture [Event.closePorts] = 0 from rfl,
      List.length_range]
    simp
  · intro sh st x y z hsh hst
    constructor
    · simp only [macro_steps, List.length_map, List.length_range]
      omega
    · intro p hp
      simp only [macro_steps, List.mem_map] at hp
      obtain ⟨i, _, hi⟩ := hp
      rw [← hi]
      simp only [macro_x_steps, List.length_map, List.length_range]
      omega
  · rw [show macro_x_steps 4 6 =
        (List.range ((4 : Int) + 1).toNat).map
          (fun i : Nat => (6 : Rat) / (((4 : Int) : Rat) - 1) * (i : Rat)) from rfl,
      show List.range ((4 : Int) + 1).toNat = [0, 1, 2, 3, 4] from by decide]
    simp
    norm_num

/-- Witness for C3 amended at the canonical macro scenario. -/
theorem c3_witness :
    (2 ≤ (4 : Int)) ∧
    countE isCapture (macroProcess (some 2) (some 4) 6 0 0 (fun _ => false) "out" true) =
      (effShutter (some 2)).toNat * (4 : Int).toNat :=
  ⟨by decide, c3_amended.1 (some 2) 4 6 0 0 (fun _ => false) "out" true (by decide)⟩

/-- C8 counterexample: with an invalid shutter count the interval
configuration error is indeed raised, but only after the four GRBL
setup commands have been sent — the pre-error event list is not empty,
so the error is not "before any controller command". -/
theorem c8_counterexample :
    (withSetup (intervalMain 1 0 0 0 (fun _ => false) "out")).2 =
      some "interval needs to be at least 2" ∧
    (withSetup (intervalMain 1 0 0 0 (fun _ => false) "out")).1 = setupEvents ∧
    setupEvents.length = 4 := by
  refine ⟨rfl, by decide, rfl⟩

/-- C8 amended: an invalid shutter count (interval) or stack count
(macro) is caught before planning and before any motion command or
capture — but after the fixed GRBL setup commands have been issued. -/
theorem c8_amended :
    (∀ (sc : Int) (x y z : Rat) (fs : String → Bool) (dir : String), sc ≤ 1 →
        withSetup (intervalMain sc x y z fs dir) =
          (setupEvents, some "interval needs to be at least 2")) ∧
    (∀ (sh st : Option Int) (x y z : Rat) (fs : String → Bool) (dir : String)
        (de : Bool), (∀ s, st = some s → s ≤ 1) →
        withSetup (macroMain sh st x y z fs dir de) =
          (setupEvents, some "stack-count needs to be at least 2")) ∧
    countE isMotion setupEvents = 0 ∧ countE isCapture setupEvents = 0 := by
  refine ⟨?_, ?_, rfl, rfl⟩
  · intro sc x y z fs dir h
    simp [withSetup, intervalMain, h]
  · intro sh st x y z fs dir de h
    cases st with
    | none => simp [withSetup, macroMain]
    | some s => simp [withSetup, macroMain, h s rfl]

/-- Witness for C8 amended at shutter count 1. -/
theorem c8_witness :
    ((1 : Int) ≤ 1) ∧
    withSetup (intervalMain 1 0 0 0 (fun _ => false) "o") =
      (setupEvents, some "interval needs to be at least 2") :=
  ⟨by decide, c8_amended.1 1 0 0 0 (fun _ => false) "o" (by decide)⟩

/-- C9 counterexample: in wait mode `close_ports()` runs twice — once
inside the mode block and once at the end of main — so cleanup is not
"exactly once" on that exit path. -/
theorem c9_counterexample : countE isClose waitProcess ≠ 1 := by decide

/-- C9 amended: cleanup runs exactly once on every exit path of every
mode except wait — interval and macro (normal completion, and error
paths through the global excepthook), move, video and bounce (normal
completion via the final `close_ports()`), and disable (its own close
before `sys.exit()`) — but wait mode runs `close_ports()` twice: once
inside the mode block and once at the end of main. -/
theorem c9_amended :
    (∀ (sc : Int) (x y z : Rat) (fs : String → Bool) (dir : String),
        countE isClose (intervalProcess sc x y z fs dir) = 1) ∧
    (∀ (sh st : Option Int) (x y z : Rat) (fs : String → Bool) (dir : String)
        (de : Bool), countE isClose (macroProcess sh st x y z fs dir de) = 1) ∧
    (∀ x y z : Rat, countE isClose (moveProcess x y z) = 1) ∧
    (∀ (x y z : Rat) (f : Nat), countE isClose (videoProcess x y z f) = 1) ∧
    (∀ (x y z : Rat) (f : Nat), countE isClose (bounceProcess x y z f) = 1) ∧
    countE isClose disableProcess = 1 ∧
    countE isClose waitProcess = 2 := by
  refine ⟨?_, ?_, fun x y z => rfl, fun x y z f => rfl, fun x y z f => rfl,
    rfl, by decide⟩
  · intro sc x y z fs dir
    by_cases hsc : sc ≤ 1
    · rw [intervalProcess_eq_err sc x y z fs dir hsc]
      decide
    · rw [intervalProcess_eq sc x y z fs dir hsc]
      simp only [countE_append]
      rw [countE_flatMap_const isClose _ 0 _
        (fun i _ => intervalStep_closes _ _ _ _),
        show countE isClose setupEvents = 0 from rfl,
        show countE isClose [Event.moveCmd 0 0 0 none, Event.waitIdle] = 0 from rfl,
        show countE isClose [Event.closePorts] = 1 from rfl]
      simp
  · intro sh st x y z fs dir de
    cases st with
    | none =>
      rw [macroProcess_eq_err sh none x y z fs dir de (fun s hs => nomatch hs)]
      decide
    | some s =>
      by_cases hs1 : s ≤ 1
      · rw [macroProcess_eq_err sh (some s) x y z fs dir de
          (fun t ht => (Option.some.inj ht) ▸ hs1)]
        decide
      · rw [macroProcess_eq sh s x y z fs dir de hs1]
        simp only [countE_append]
        rw [countE_flatMap_const isClose _ 0 _
          (fun i _ => macroOuter_closes _ _ _ _ _ _),
          show countE isClose setupEvents = 0 from rfl,
          show countE isClose [Event.moveCmd 0 0 0 none, Event.waitIdle] = 0 from rfl,
          show countE isClose [Event.closePorts] = 1 from rfl]
        simp

/-- Witness for C9 amended at a concrete interval invocation. -/
theorem c9_witness :
    countE isClose (intervalProcess 5 1 2 3 (fun _ => false) "d") = 1 :=
  c9_amended.1 5 1 2 3 (fun _ => false) "d"
